import Mathlib

/-!
# Shallow embedding of `routines.cpp`

The C/C++ source is a flat utility library: index-to-value mappers, jagged
N-dimensional array allocation/deallocation, array extrema, vector and tensor
algebra, and spline-ordinate construction over a caller-supplied function.

Modelling conventions:
* C `double` values are modelled as real numbers (`ℝ`); arithmetic is exact.
* A C pointer into a caller-supplied 1-D array is modelled as a total function
  `ℕ → ℝ` (the routine reads only the indices the source reads).
* A newly allocated result array is modelled as a `List ℝ` (or nested lists).
* `libm`'s `pow(10.0, t)` is `(10 : ℝ) ^ t` (real-exponent power) and
  `log10 y` is `Real.logb 10 y`.
* `exit(-1)` after a diagnostic `printf` is modelled as an `Except.error`
  carrying exactly the values the diagnostic reports.
* Heap traffic of the allocate/deallocate pairs is modelled as a trace of heap
  operations; a block is identified by its access path from the top pointer
  (`[]` = the top pointer, `[i]` = `x[i]`, `[i,j]` = `x[i][j]`, ...).
-/

namespace Routines

/-- `double double_log10_index(int i, int n, double xmin, double xmax)`:
`pow(10.0, (log10(xmax) - log10(xmin))*i/(n-1) + log10(xmin))`. -/
noncomputable def double_log10_index (i n : ℤ) (xmin xmax : ℝ) : ℝ :=
  (10 : ℝ) ^ ((Real.logb 10 xmax - Real.logb 10 xmin) * (i : ℝ) / ((n - 1 : ℤ) : ℝ)
    + Real.logb 10 xmin)

/-- `double double_linear_index(int i, int n, double xmin, double xmax)`:
`(xmax - xmin)*i/(n-1) + xmin`. -/
noncomputable def double_linear_index (i n : ℤ) (xmin xmax : ℝ) : ℝ :=
  (xmax - xmin) * (i : ℝ) / ((n - 1 : ℤ) : ℝ) + xmin

/-- `double **two_dimensional_array(int n, int l)`: allocates `n` rows of `l`
doubles each, then zeroes every entry. -/
def two_dimensional_array (n l : ℕ) : List (List ℝ) :=
  (List.range n).map fun _ => (List.range l).map fun _ => (0 : ℝ)

/-- `double ****four_dimensional_array(int n, int l, int m, int p)`.
The third level `x[i][j]` is `new double *[m]`: a row of `m` uninitialized
pointer slots, modelled as `List.replicate m none`.  The inner loop
`for(k=0;k<p;k++) x[i][j][k] = new double[p];` stores a pointer to a length-`p`
leaf (modelled as `some p`) at slot `k` for `k < p` — the source's loop bound
is `p`, not `m`.  (`List.set` drops the store when `k ≥ m`, where the C code
writes past the end of the `m`-slot row.) -/
def four_dimensional_array (n l m p : ℕ) : List (List (List (Option ℕ))) :=
  (List.range n).map fun _ =>
    (List.range l).map fun _ =>
      (List.range p).foldl (fun row k => row.set k (some p)) (List.replicate m none)

/-- One heap operation: an allocation `new T[size]` of the block at `path`, or
its release via `delete[]` (array form) or scalar `delete`. -/
inductive HeapOp where
  | newArray (path : List ℕ) (size : ℕ)
  | deleteArray (path : List ℕ)
  | deleteScalar (path : List ℕ)
deriving DecidableEq, Repr

/-- Heap-allocation trace of `two_dimensional_array(n, l)`:
`x = new double *[n]; for(i=0;i<n;i++) x[i] = new double[l];`. -/
def two_dimensional_array_trace (n l : ℕ) : List HeapOp :=
  HeapOp.newArray [] n :: (List.range n).map fun i => HeapOp.newArray [i] l

/-- Heap-release trace of `deallocate_two_dimensional_array(x, n, l)`:
`for(i=0;i<n;i++) delete[] x[i]; delete x;` — note the scalar `delete` (not
`delete[]`) on the top pointer. -/
def deallocate_two_dimensional_array_trace (n l : ℕ) : List HeapOp :=
  ((List.range n).map fun i => HeapOp.deleteArray [i]) ++ [HeapOp.deleteScalar []]

/-- `double array_max(double *x, int n)` via `gsl_stats_max(x, 1, n)`:
starts from `x[0]` and folds `max` over `x[0..n)`. -/
def array_max (x : ℕ → ℝ) (n : ℕ) : ℝ :=
  (List.range n).foldl (fun m i => max m (x i)) (x 0)

/-- `double array_min(double *x, int n)` via `gsl_stats_min(x, 1, n)`:
starts from `x[0]` and folds `min` over `x[0..n)`. -/
def array_min (x : ℕ → ℝ) (n : ℕ) : ℝ :=
  (List.range n).foldl (fun m i => min m (x i)) (x 0)

/-- `double *vector_cross_product(double *x, double *y, int ndim)`:
`ndim == 2` gives a freshly allocated length-1 array, anything else the
length-3 standard cross product. -/
def vector_cross_product (x y : ℕ → ℝ) (ndim : ℤ) : List ℝ :=
  if ndim = 2 then
    [x 0 * y 1 - x 1 * y 0]
  else
    [x 1 * y 2 - x 2 * y 1, x 2 * y 0 - x 0 * y 2, x 0 * y 1 - x 1 * y 0]

/-- `void vector_cross_product_in_place(double *r, double *x, double *y, int ndim)`:
returns the contents of the caller-supplied buffer `r` after the writes
`r[0] = ...` (and `r[1] = ...; r[2] = ...` in the `ndim != 2` branch). -/
def vector_cross_product_in_place (r x y : ℕ → ℝ) (ndim : ℤ) : ℕ → ℝ :=
  if ndim = 2 then
    Function.update r 0 (x 0 * y 1 - x 1 * y 0)
  else
    Function.update
      (Function.update
        (Function.update r 0 (x 1 * y 2 - x 2 * y 1))
        1 (x 2 * y 0 - x 0 * y 2))
      2 (x 0 * y 1 - x 1 * y 0)

/-- `double **tensor_transformation(double **a, double **sigma, int ndim)`:
allocates a zero-initialized `ndim × ndim` result via `two_dimensional_array`
and overwrites every entry with `result[n][m] = Σ_j a[n][j] * (Σ_i a[m][i] *
sigma[j][i])` (the accumulators `y` then `x` of the source's nested loops). -/
def tensor_transformation (a sigma : ℕ → ℕ → ℝ) (ndim : ℕ) : List (List ℝ) :=
  (List.range ndim).map fun n =>
    (List.range ndim).map fun m =>
      ∑ j ∈ Finset.range ndim, a n j * ∑ i ∈ Finset.range ndim, a m i * sigma j i

/-- `double matrix_determinant(double **a, int ndim)`: `ndim == 2` uses the 2×2
formula, any other `ndim` falls into the 3×3 cofactor branch, accumulated
exactly as the source does (`det = 0; det += ...; det += ...; det -= ...`). -/
def matrix_determinant (a : ℕ → ℕ → ℝ) (ndim : ℤ) : ℝ :=
  if ndim = 2 then
    a 0 0 * a 1 1 - a 1 0 * a 0 1
  else
    0 + (a 0 0 * a 1 1 * a 2 2 + a 0 1 * a 1 2 * a 2 0)
      + (a 0 2 * a 1 0 * a 2 1 - a 0 2 * a 1 1 * a 2 0)
      - (a 0 1 * a 1 0 * a 2 2 + a 0 0 * a 1 2 * a 2 1)

/-- The loop of `create_log10_spline` over sample indices `0, ..., n-1`:
`x = pow(10.0, log10x[i]); y = func(x, params); if (y <= 0) { printf(...);
exit(-1); } log10y[i] = log10(y);`.  The fatal exit is `Except.error (x, y)`
(the two values the diagnostic reports); a normal run returns the `log10y`
array. -/
noncomputable def log10_spline_ordinates {α : Type} (func : ℝ → α → ℝ)
    (log10x : ℕ → ℝ) (params : α) : ℕ → Except (ℝ × ℝ) (List ℝ)
  | 0 => Except.ok []
  | n + 1 =>
    match log10_spline_ordinates func log10x params n with
    | Except.error er => Except.error er
    | Except.ok ys =>
      if func ((10 : ℝ) ^ log10x n) params ≤ 0 then
        Except.error ((10 : ℝ) ^ log10x n, func ((10 : ℝ) ^ log10x n) params)
      else
        Except.ok (ys ++ [Real.logb 10 (func ((10 : ℝ) ^ log10x n) params)])

/-- `void create_log10_spline(func, log10x, log10y, n, params, spline, acc)`:
allocates `log10y`, fills it through the sampling loop (aborting on a
non-positive sample), then hands `log10x`/`log10y` to the external GSL cubic
spline constructor.  The model returns the `log10y` contents (the spline and
accelerator objects are opaque library state). -/
noncomputable def create_log10_spline {α : Type} (func : ℝ → α → ℝ)
    (log10x : ℕ → ℝ) (n : ℕ) (params : α) : Except (ℝ × ℝ) (List ℝ) :=
  log10_spline_ordinates func log10x params n

/-- The identity matrix as a total function on indices. -/
def idMat : ℕ → ℕ → ℝ := fun i j => if i = j then 1 else 0

/-- Standard basis vector `e k` (1 at index `k`, 0 elsewhere), used to spell
concrete vectors such as `[1,0,...]`. -/
def e (k : ℕ) : ℕ → ℝ := fun i => if i = k then 1 else 0

/-- **C3.** `matrix_determinant(a, 2)` is `a00*a11 − a10*a01`, and for every
`ndim ≠ 2` the routine computes the standard 3×3 first-row cofactor expansion
`a00*a11*a22 + a01*a12*a20 + a02*a10*a21 − a02*a11*a20 − a01*a10*a22 −
a00*a12*a21`. -/
theorem matrix_determinant_spec (a : ℕ → ℕ → ℝ) (ndim : ℤ) (h : ndim ≠ 2) :
    matrix_determinant a 2 = a 0 0 * a 1 1 - a 1 0 * a 0 1 ∧
    matrix_determinant a ndim =
      a 0 0 * a 1 1 * a 2 2 + a 0 1 * a 1 2 * a 2 0 + a 0 2 * a 1 0 * a 2 1
        - a 0 2 * a 1 1 * a 2 0 - a 0 1 * a 1 0 * a 2 2 - a 0 0 * a 1 2 * a 2 1 := by
  constructor
  · simp [matrix_determinant]
  · rw [matrix_determinant, if_neg h]; ring

/-- Witness for `matrix_determinant_spec`: the identity matrix with `ndim = 3`. -/
theorem matrix_determinant_spec_witness :
    (3 : ℤ) ≠ 2 ∧
    (matrix_determinant idMat 2 = idMat 0 0 * idMat 1 1 - idMat 1 0 * idMat 0 1 ∧
     matrix_determinant idMat 3 =
       idMat 0 0 * idMat 1 1 * idMat 2 2 + idMat 0 1 * idMat 1 2 * idMat 2 0
         + idMat 0 2 * idMat 1 0 * idMat 2 1 - idMat 0 2 * idMat 1 1 * idMat 2 0
         - idMat 0 1 * idMat 1 0 * idMat 2 2 - idMat 0 0 * idMat 1 2 * idMat 2 1) :=
  ⟨by decide, matrix_determinant_spec idMat 3 (by decide)⟩

/-- **C5.** `vector_cross_product` returns `[x0*y1 − x1*y0]` for `ndim = 2` and
the standard 3-component cross product for every `ndim ≠ 2`; in particular
`cross([1,0],[0,1],2) = [1]` and `cross([1,0,0],[0,1,0],3) = [0,0,1]`. -/
theorem vector_cross_product_spec (x y : ℕ → ℝ) (ndim : ℤ) (h : ndim ≠ 2) :
    vector_cross_product x y 2 = [x 0 * y 1 - x 1 * y 0] ∧
    vector_cross_product x y ndim =
      [x 1 * y 2 - x 2 * y 1, x 2 * y 0 - x 0 * y 2, x 0 * y 1 - x 1 * y 0] ∧
    vector_cross_product (e 0) (e 1) 2 = [1] ∧
    vector_cross_product (e 0) (e 1) 3 = [0, 0, 1] := by
  refine ⟨by simp [vector_cross_product], by rw [vector_cross_product, if_neg h], ?_, ?_⟩
  · norm_num [vector_cross_product, e]
  · norm_num [vector_cross_product, e]

/-- Witness for `vector_cross_product_spec`: `x = [0,1,0]`, `y = [0,0,1]`,
`ndim = 3`. -/
theorem vector_cross_product_spec_witness :
    (3 : ℤ) ≠ 2 ∧
    (vector_cross_product (e 1) (e 2) 2 = [e 1 0 * e 2 1 - e 1 1 * e 2 0] ∧
     vector_cross_product (e 1) (e 2) 3 =
       [e 1 1 * e 2 2 - e 1 2 * e 2 1, e 1 2 * e 2 0 - e 1 0 * e 2 2,
        e 1 0 * e 2 1 - e 1 1 * e 2 0] ∧
     vector_cross_product (e 0) (e 1) 2 = [1] ∧
     vector_cross_product (e 0) (e 1) 3 = [0, 0, 1]) :=
  ⟨by decide, vector_cross_product_spec (e 1) (e 2) 3 (by decide)⟩

/-- **C6.** The allocating cross product and the in-place one agree: for every
index `k` into the array the allocating form returns, the value there equals
the value the in-place form writes into the caller's buffer `r`, in both the
`ndim = 2` and the `ndim ≠ 2` branch. -/
theorem vector_cross_product_in_place_equiv (r x y : ℕ → ℝ) (ndim : ℤ) (k : ℕ)
    (hk : k < (vector_cross_product x y ndim).length) :
    (vector_cross_product x y ndim).getD k 0 =
      vector_cross_product_in_place r x y ndim k := by
  by_cases h : ndim = 2
  · simp only [vector_cross_product, vector_cross_product_in_place, if_pos h,
      List.length_singleton] at hk ⊢
    interval_cases k
    simp [Function.update]
  · simp only [vector_cross_product, vector_cross_product_in_place, if_neg h,
      List.length_cons, List.length_nil] at hk ⊢
    interval_cases k <;> simp [Function.update]

/-- Witness for `vector_cross_product_in_place_equiv`: `r = 0`, `x = [1,0,0]`,
`y = [0,1,0]`, `ndim = 3`, `k = 2`. -/
theorem vector_cross_product_in_place_equiv_witness :
    2 < (vector_cross_product (e 0) (e 1) 3).length ∧
    (vector_cross_product (e 0) (e 1) 3).getD 2 0 =
      vector_cross_product_in_place (fun _ => 0) (e 0) (e 1) 3 2 :=
  ⟨by norm_num [vector_cross_product],
   vector_cross_product_in_place_equiv (fun _ => 0) (e 0) (e 1) 3 2
     (by norm_num [vector_cross_product])⟩

/-- **C10.** The cross product is anticommutative: each component of
`vector_cross_product(y, x, ndim)` is the negation of the corresponding
component of `vector_cross_product(x, y, ndim)`, in both branches. -/
theorem vector_cross_product_anticomm (x y : ℕ → ℝ) (ndim : ℤ) (k : ℕ)
    (hk : k < (vector_cross_product x y ndim).length) :
    (vector_cross_product y x ndim).getD k 0 =
      -((vector_cross_product x y ndim).getD k 0) := by
  by_cases h : ndim = 2
  · simp only [vector_cross_product, if_pos h, List.length_singleton] at hk ⊢
    interval_cases k <;> simp <;> ring
  · simp only [vector_cross_product, if_neg h, List.length_cons,
      List.length_nil] at hk ⊢
    interval_cases k <;> simp <;> ring

/-- Witness for `vector_cross_product_anticomm`: `x = [0,0,1]`, `y = [1,0,0]`,
`ndim = 2`, `k = 0`. -/
theorem vector_cross_product_anticomm_witness :
    0 < (vector_cross_product (e 2) (e 0) 2).length ∧
    (vector_cross_product (e 0) (e 2) 2).getD 0 0 =
      -((vector_cross_product (e 2) (e 0) 2).getD 0 0) :=
  ⟨by norm_num [vector_cross_product],
   vector_cross_product_anticomm (e 2) (e 0) 2 0 (by norm_num [vector_cross_product])⟩

/-- **C1 (code bug).** With dimensions `n = l = 1`, `m = 2`, `p = 1` the inner
allocation loop of `four_dimensional_array` runs `k < p` (not `k < m`), so the
second of the `m = 2` third-level pointer slots of row `(0,0)` never receives a
leaf allocation: the claim "every one of the m pointers refers to an allocated
leaf array of length p" fails at `k = 1`. -/
theorem four_dimensional_array_unallocated_leaf :
    (((four_dimensional_array 1 1 2 1).getD 0 []).getD 0 []).getD 1 (some 0) = none ∧
    ¬ (∀ k < 2,
        (((four_dimensional_array 1 1 2 1).getD 0 []).getD 0 []).getD k (some 0)
          = some 1) := by
  decide

/-- **C9 (code bug).** In the allocate/deallocate round trip for the 2-D shape
`n = l = 1`, the top pointer (path `[]`) is created by `new double *[n]`
(array `new`), but `deallocate_two_dimensional_array` releases it with the
scalar `delete` and never with `delete[]` — a mismatched release operation. -/
theorem deallocate_two_dimensional_array_mismatched_release :
    HeapOp.newArray [] 1 ∈ two_dimensional_array_trace 1 1 ∧
    HeapOp.deleteScalar [] ∈ deallocate_two_dimensional_array_trace 1 1 ∧
    HeapOp.deleteArray [] ∉ deallocate_two_dimensional_array_trace 1 1 := by
  decide

/-- The `(n, m)` entry of `tensor_transformation` is the source's double sum. -/
theorem tensor_transformation_entry (a sigma : ℕ → ℕ → ℝ) (ndim n m : ℕ)
    (hn : n < ndim) (hm : m < ndim) :
    ((tensor_transformation a sigma ndim).getD n []).getD m 0 =
      ∑ j ∈ Finset.range ndim, a n j * ∑ i ∈ Finset.range ndim, a m i * sigma j i := by
  have h1 : n < (tensor_transformation a sigma ndim).length := by
    simpa [tensor_transformation] using hn
  rw [List.getD_eq_getElem _ _ h1]
  simp only [tensor_transformation, List.getElem_map, List.getElem_range]
  have h2 : m < ((List.range ndim).map fun m =>
      ∑ j ∈ Finset.range ndim, a n j * ∑ i ∈ Finset.range ndim, a m i * sigma j i).length := by
    simpa using hm
  rw [List.getD_eq_getElem _ _ h2]
  simp

/-- **C4.** For `ndim ≥ 1`, `tensor_transformation(a, sigma, ndim)` is an
`ndim × ndim` array with entry `(n, m)` equal to
`Σ_j a[n][j] * (Σ_i a[m][i] * sigma[j][i])`; when `a` is the identity the
result equals `sigma` entrywise. -/
theorem tensor_transformation_spec (a sigma : ℕ → ℕ → ℝ) (ndim : ℕ)
    (_hdim : 1 ≤ ndim) :
    (tensor_transformation a sigma ndim).length = ndim ∧
    (∀ n < ndim, ((tensor_transformation a sigma ndim).getD n []).length = ndim) ∧
    (∀ n < ndim, ∀ m < ndim,
      ((tensor_transformation a sigma ndim).getD n []).getD m 0 =
        ∑ j ∈ Finset.range ndim, a n j * ∑ i ∈ Finset.range ndim, a m i * sigma j i) ∧
    (a = idMat → ∀ n < ndim, ∀ m < ndim,
      ((tensor_transformation a sigma ndim).getD n []).getD m 0 = sigma n m) := by
  refine ⟨by simp [tensor_transformation], ?_, ?_, ?_⟩
  · intro n hn
    have h1 : n < (tensor_transformation a sigma ndim).length := by
      simpa [tensor_transformation] using hn
    rw [List.getD_eq_getElem _ _ h1]
    simp [tensor_transformation]
  · intro n hn m hm
    exact tensor_transformation_entry a sigma ndim n m hn hm
  · rintro rfl n hn m hm
    rw [tensor_transformation_entry idMat sigma ndim n m hn hm]
    have inner : ∀ j, ∑ i ∈ Finset.range ndim, idMat m i * sigma j i = sigma j m := by
      intro j
      simp only [idMat, ite_mul, one_mul, zero_mul, Finset.sum_ite_eq, Finset.mem_range]
      exact if_pos hm
    simp only [inner]
    simp only [idMat, ite_mul, one_mul, zero_mul, Finset.sum_ite_eq, Finset.mem_range]
    exact if_pos hn

/-- Witness for `tensor_transformation_spec`: `a = sigma = idMat`, `ndim = 1`. -/
theorem tensor_transformation_spec_witness :
    1 ≤ 1 ∧
    ((tensor_transformation idMat idMat 1).length = 1 ∧
     (∀ n < 1, ((tensor_transformation idMat idMat 1).getD n []).length = 1) ∧
     (∀ n < 1, ∀ m < 1,
       ((tensor_transformation idMat idMat 1).getD n []).getD m 0 =
         ∑ j ∈ Finset.range 1, idMat n j *
           ∑ i ∈ Finset.range 1, idMat m i * idMat j i) ∧
     (idMat = idMat → ∀ n < 1, ∀ m < 1,
       ((tensor_transformation idMat idMat 1).getD n []).getD m 0 = idMat n m)) :=
  ⟨le_refl 1, tensor_transformation_spec idMat idMat 1 (le_refl 1)⟩

/-- The running fold of `gsl_stats_max` never drops below its seed. -/
theorem le_foldl_max (x : ℕ → ℝ) :
    ∀ (l : List ℕ) (init : ℝ), init ≤ l.foldl (fun m i => max m (x i)) init := by
  intro l
  induction l with
  | nil => intro init; exact le_refl _
  | cons a l ih =>
    intro init
    exact le_trans (le_max_left _ _) (ih (max init (x a)))

/-- Every scanned element is below the running fold of `gsl_stats_max`. -/
theorem mem_le_foldl_max (x : ℕ → ℝ) :
    ∀ (l : List ℕ) (init : ℝ), ∀ i ∈ l, x i ≤ l.foldl (fun m i => max m (x i)) init := by
  intro l
  induction l with
  | nil => intro init i hi; cases hi
  | cons a l ih =>
    intro init i hi
    rcases List.mem_cons.mp hi with rfl | hi
    · exact le_trans (le_max_right _ _) (le_foldl_max x l _)
    · exact ih _ i hi

/-- The running fold of `gsl_stats_max` is the seed or one of the scanned
elements. -/
theorem foldl_max_mem (x : ℕ → ℝ) :
    ∀ (l : List ℕ) (init : ℝ), l.foldl (fun m i => max m (x i)) init = init ∨
      ∃ i ∈ l, l.foldl (fun m i => max m (x i)) init = x i := by
  intro l
  induction l with
  | nil => intro init; exact Or.inl rfl
  | cons a l ih =>
    intro init
    rcases ih (max init (x a)) with h | ⟨i, hi, h⟩
    · rcases max_choice init (x a) with hm | hm
      · exact Or.inl (by rw [List.foldl_cons, h, hm])
      · exact Or.inr ⟨a, List.mem_cons_self a l, by rw [List.foldl_cons, h, hm]⟩
    · exact Or.inr ⟨i, List.mem_cons_of_mem a hi, h⟩

/-- The running fold of `gsl_stats_min` never rises above its seed. -/
theorem foldl_min_le (x : ℕ → ℝ) :
    ∀ (l : List ℕ) (init : ℝ), l.foldl (fun m i => min m (x i)) init ≤ init := by
  intro l
  induction l with
  | nil => intro init; exact le_refl _
  | cons a l ih =>
    intro init
    exact le_trans (ih (min init (x a))) (min_le_left _ _)

/-- The running fold of `gsl_stats_min` is below every scanned element. -/
theorem foldl_min_le_mem (x : ℕ → ℝ) :
    ∀ (l : List ℕ) (init : ℝ), ∀ i ∈ l, l.foldl (fun m i => min m (x i)) init ≤ x i := by
  intro l
  induction l with
  | nil => intro init i hi; cases hi
  | cons a l ih =>
    intro init i hi
    rcases List.mem_cons.mp hi with rfl | hi
    · exact le_trans (foldl_min_le x l _) (min_le_right _ _)
    · exact ih _ i hi

/-- The running fold of `gsl_stats_min` is the seed or one of the scanned
elements. -/
theorem foldl_min_mem (x : ℕ → ℝ) :
    ∀ (l : List ℕ) (init : ℝ), l.foldl (fun m i => min m (x i)) init = init ∨
      ∃ i ∈ l, l.foldl (fun m i => min m (x i)) init = x i := by
  intro l
  induction l with
  | nil => intro init; exact Or.inl rfl
  | cons a l ih =>
    intro init
    rcases ih (min init (x a)) with h | ⟨i, hi, h⟩
    · rcases min_choice init (x a) with hm | hm
      · exact Or.inl (by rw [List.foldl_cons, h, hm])
      · exact Or.inr ⟨a, List.mem_cons_self a l, by rw [List.foldl_cons, h, hm]⟩
    · exact Or.inr ⟨i, List.mem_cons_of_mem a hi, h⟩

/-- **C8.** For `n ≥ 1`, every element of `x[0..n)` lies between
`array_min(x, n)` and `array_max(x, n)`, both returned values are themselves
elements of the scanned range, and both equal `x[0]` when `n = 1`. -/
theorem array_extrema_spec (x : ℕ → ℝ) (n : ℕ) (hn : 1 ≤ n) :
    (∀ i < n, array_min x n ≤ x i ∧ x i ≤ array_max x n) ∧
    (∃ j < n, array_max x n = x j) ∧
    (∃ j < n, array_min x n = x j) ∧
    (n = 1 → array_max x n = x 0 ∧ array_min x n = x 0) := by
  refine ⟨?_, ?_, ?_, ?_⟩
  · intro i hi
    exact ⟨foldl_min_le_mem x (List.range n) (x 0) i (List.mem_range.mpr hi),
      mem_le_foldl_max x (List.range n) (x 0) i (List.mem_range.mpr hi)⟩
  · rcases foldl_max_mem x (List.range n) (x 0) with h | ⟨i, hi, h⟩
    · exact ⟨0, hn, h⟩
    · exact ⟨i, List.mem_range.mp hi, h⟩
  · rcases foldl_min_mem x (List.range n) (x 0) with h | ⟨i, hi, h⟩
    · exact ⟨0, hn, h⟩
    · exact ⟨i, List.mem_range.mp hi, h⟩
  · rintro rfl
    constructor
    · show (List.range 1).foldl (fun m i => max m (x i)) (x 0) = x 0
      simp [List.range_succ]
    · show (List.range 1).foldl (fun m i => min m (x i)) (x 0) = x 0
      simp [List.range_succ]

/-- Witness for `array_extrema_spec`: `x = [1,0,0,...]`, `n = 2`. -/
theorem array_extrema_spec_witness :
    1 ≤ 2 ∧
    ((∀ i < 2, array_min (e 0) 2 ≤ e 0 i ∧ e 0 i ≤ array_max (e 0) 2) ∧
     (∃ j < 2, array_max (e 0) 2 = e 0 j) ∧
     (∃ j < 2, array_min (e 0) 2 = e 0 j) ∧
     (2 = 1 → array_max (e 0) 2 = e 0 0 ∧ array_min (e 0) 2 = e 0 0)) :=
  ⟨by norm_num, array_extrema_spec (e 0) 2 (by norm_num)⟩

/-- **C7.** For `n ≥ 2` and `0 ≤ i ≤ n−1`: `double_linear_index` realizes
`xmin + (xmax−xmin)*i/(n−1)` for all real endpoints, hitting `xmin` at `i = 0`
and `xmax` at `i = n−1`; `double_log10_index` realizes
`10^(log10(xmin) + (log10(xmax)−log10(xmin))*i/(n−1))`, and for positive
endpoints `xmin, xmax > 0` it hits `xmin` at `i = 0` and `xmax` at
`i = n−1`. -/
theorem index_mappers_spec (i n : ℤ) (xmin xmax : ℝ) (hn : 2 ≤ n)
    (_hi0 : 0 ≤ i) (_hi : i ≤ n - 1) :
    double_linear_index i n xmin xmax =
      xmin + (xmax - xmin) * (i : ℝ) / ((n : ℝ) - 1) ∧
    double_linear_index 0 n xmin xmax = xmin ∧
    double_linear_index (n - 1) n xmin xmax = xmax ∧
    double_log10_index i n xmin xmax =
      (10 : ℝ) ^ (Real.logb 10 xmin +
        (Real.logb 10 xmax - Real.logb 10 xmin) * (i : ℝ) / ((n : ℝ) - 1)) ∧
    (0 < xmin → 0 < xmax → double_log10_index 0 n xmin xmax = xmin) ∧
    (0 < xmin → 0 < xmax → double_log10_index (n - 1) n xmin xmax = xmax) := by
  have h2 : (2 : ℝ) ≤ (n : ℝ) := by exact_mod_cast hn
  have hne : ((n : ℝ) - 1) ≠ 0 := by linarith
  refine ⟨?_, ?_, ?_, ?_, ?_, ?_⟩
  · rw [double_linear_index]; push_cast; ring
  · rw [double_linear_index]; push_cast; ring
  · rw [double_linear_index]
    push_cast
    rw [mul_div_assoc, div_self hne, mul_one]
    ring
  · rw [double_log10_index]
    congr 1
    push_cast
    ring
  · intro hxmin _hxmax
    rw [double_log10_index]
    push_cast
    rw [show (Real.logb 10 xmax - Real.logb 10 xmin) * 0 / ((n : ℝ) - 1)
        + Real.logb 10 xmin = Real.logb 10 xmin from by ring]
    exact Real.rpow_logb (by norm_num) (by norm_num) hxmin
  · intro _hxmin hxmax
    rw [double_log10_index]
    push_cast
    rw [show (Real.logb 10 xmax - Real.logb 10 xmin) * ((n : ℝ) - 1) / ((n : ℝ) - 1)
        + Real.logb 10 xmin = Real.logb 10 xmax from by
      rw [mul_div_assoc, div_self hne, mul_one]; ring]
    exact Real.rpow_logb (by norm_num) (by norm_num) hxmax

/-- Witness for `index_mappers_spec`: `i = 1`, `n = 3`, `xmin = 1`,
`xmax = 100`. -/
theorem index_mappers_spec_witness :
    (2 : ℤ) ≤ 3 ∧ (0 : ℤ) ≤ 1 ∧ (1 : ℤ) ≤ 3 - 1 ∧
    (double_linear_index 1 3 1 100 =
       1 + ((100 : ℝ) - 1) * ((1 : ℤ) : ℝ) / (((3 : ℤ) : ℝ) - 1) ∧
     double_linear_index 0 3 1 100 = 1 ∧
     double_linear_index (3 - 1) 3 1 100 = 100 ∧
     double_log10_index 1 3 1 100 =
       (10 : ℝ) ^ (Real.logb 10 1 +
         (Real.logb 10 100 - Real.logb 10 1) * ((1 : ℤ) : ℝ) / (((3 : ℤ) : ℝ) - 1)) ∧
     ((0 : ℝ) < 1 → (0 : ℝ) < 100 → double_log10_index 0 3 1 100 = 1) ∧
     ((0 : ℝ) < 1 → (0 : ℝ) < 100 → double_log10_index (3 - 1) 3 1 100 = 100)) :=
  ⟨by norm_num, by norm_num, by norm_num,
   index_mappers_spec 1 3 1 100 (by norm_num) (by norm_num) (by norm_num)⟩

/-- A successful run of the `create_log10_spline` sampling loop means every
sample was positive, and the ordinates are exactly the `log10` values of the
samples, in order. -/
theorem log10_spline_ordinates_ok {α : Type} (func : ℝ → α → ℝ) (log10x : ℕ → ℝ)
    (params : α) :
    ∀ (n : ℕ) (ys : List ℝ),
      log10_spline_ordinates func log10x params n = Except.ok ys →
      (∀ i < n, 0 < func ((10 : ℝ) ^ log10x i) params) ∧
      ys = (List.range n).map
        fun i => Real.logb 10 (func ((10 : ℝ) ^ log10x i) params) := by
  intro n
  induction n with
  | zero =>
    intro ys h
    rw [log10_spline_ordinates] at h
    cases h
    simp
  | succ n ih =>
    intro ys h
    rw [log10_spline_ordinates] at h
    cases hrec : log10_spline_ordinates func log10x params n with
    | error er => rw [hrec] at h; dsimp only at h; cases h
    | ok zs =>
      rw [hrec] at h
      dsimp only at h
      by_cases hy : func ((10 : ℝ) ^ log10x n) params ≤ 0
      · rw [if_pos hy] at h; cases h
      · rw [if_neg hy] at h
        cases h
        obtain ⟨hpos, hshape⟩ := ih zs hrec
        refine ⟨?_, ?_⟩
        · intro i hi
          rcases Nat.lt_succ_iff_lt_or_eq.mp hi with hi2 | rfl
          · exact hpos i hi2
          · exact lt_of_not_le hy
        · rw [List.range_succ, List.map_append, hshape]
          simp

/-- A fatal exit of the `create_log10_spline` sampling loop reports exactly the
offending sample point and its non-positive value. -/
theorem log10_spline_ordinates_error {α : Type} (func : ℝ → α → ℝ)
    (log10x : ℕ → ℝ) (params : α) :
    ∀ (n : ℕ) (er : ℝ × ℝ),
      log10_spline_ordinates func log10x params n = Except.error er →
      ∃ i < n, func ((10 : ℝ) ^ log10x i) params ≤ 0 ∧
        er = ((10 : ℝ) ^ log10x i, func ((10 : ℝ) ^ log10x i) params) := by
  intro n
  induction n with
  | zero =>
    intro er h
    rw [log10_spline_ordinates] at h
    cases h
  | succ n ih =>
    intro er h
    rw [log10_spline_ordinates] at h
    cases hrec : log10_spline_ordinates func log10x params n with
    | error er2 =>
      rw [hrec] at h
      dsimp only at h
      obtain ⟨i, hi, hle, heq⟩ := ih er2 hrec
      cases h
      exact ⟨i, Nat.lt_succ_of_lt hi, hle, heq⟩
    | ok zs =>
      rw [hrec] at h
      dsimp only at h
      by_cases hy : func ((10 : ℝ) ^ log10x n) params ≤ 0
      · rw [if_pos hy] at h
        cases h
        exact ⟨n, Nat.lt_succ_self n, hy, rfl⟩
      · rw [if_neg hy] at h; cases h

/-- **C2.** For `n ≥ 2`, `create_log10_spline` fails fatally — reporting the
offending input `x = 10^log10x[i]` and output `y = f(x, params)` — exactly
when some sample satisfies `f(10^log10x[i], params) ≤ 0`; otherwise it returns
normally with `log10y[i] = log10(f(10^log10x[i], params))` for every
`i < n`. -/
theorem create_log10_spline_spec {α : Type} (func : ℝ → α → ℝ)
    (log10x : ℕ → ℝ) (n : ℕ) (params : α) (_hn : 2 ≤ n) :
    ((∃ er, create_log10_spline func log10x n params = Except.error er) ↔
      ∃ i < n, func ((10 : ℝ) ^ log10x i) params ≤ 0) ∧
    (∀ er, create_log10_spline func log10x n params = Except.error er →
      ∃ i < n, func ((10 : ℝ) ^ log10x i) params ≤ 0 ∧
        er = ((10 : ℝ) ^ log10x i, func ((10 : ℝ) ^ log10x i) params)) ∧
    (∀ ys, create_log10_spline func log10x n params = Except.ok ys →
      ys.length = n ∧
      ∀ i < n, ys.getD i 0 = Real.logb 10 (func ((10 : ℝ) ^ log10x i) params)) := by
  refine ⟨⟨?_, ?_⟩, ?_, ?_⟩
  · rintro ⟨er, her⟩
    obtain ⟨i, hi, hle, _⟩ :=
      log10_spline_ordinates_error func log10x params n er her
    exact ⟨i, hi, hle⟩
  · rintro ⟨i, hi, hle⟩
    cases hres : log10_spline_ordinates func log10x params n with
    | error er => exact ⟨er, hres⟩
    | ok ys =>
      obtain ⟨hpos, _⟩ := log10_spline_ordinates_ok func log10x params n ys hres
      exact absurd hle (not_le.mpr (hpos i hi))
  · intro er her
    exact log10_spline_ordinates_error func log10x params n er her
  · intro ys hys
    obtain ⟨_, hshape⟩ := log10_spline_ordinates_ok func log10x params n ys hys
    subst hshape
    refine ⟨by simp, ?_⟩
    intro i hi
    have hlen : i < ((List.range n).map
        fun i => Real.logb 10 (func ((10 : ℝ) ^ log10x i) params)).length := by
      simpa using hi
    rw [List.getD_eq_getElem _ _ hlen]
    simp

/-- Witness for `create_log10_spline_spec`: `func(x, _) = x`,
`log10x = [0, 0]`, `n = 2`. -/
theorem create_log10_spline_spec_witness :
    (2 : ℕ) ≤ 2 ∧
    (((∃ er, create_log10_spline (fun x (_ : Unit) => x) (fun _ => 0) 2 ()
          = Except.error er) ↔
        ∃ i < 2, (10 : ℝ) ^ (0 : ℝ) ≤ 0) ∧
     (∀ er, create_log10_spline (fun x (_ : Unit) => x) (fun _ => 0) 2 ()
          = Except.error er →
        ∃ i < 2, (10 : ℝ) ^ (0 : ℝ) ≤ 0 ∧
          er = ((10 : ℝ) ^ (0 : ℝ), (10 : ℝ) ^ (0 : ℝ))) ∧
     (∀ ys, create_log10_spline (fun x (_ : Unit) => x) (fun _ => 0) 2 ()
          = Except.ok ys →
        ys.length = 2 ∧
        ∀ i < 2, ys.getD i 0 = Real.logb 10 ((10 : ℝ) ^ (0 : ℝ)))) :=
  ⟨le_refl 2,
   create_log10_spline_spec (fun x (_ : Unit) => x) (fun _ => 0) 2 () (le_refl 2)⟩

end Routines
